import Mathlib

/-!
Verification of the bounding-box decoding and rendering core of `bbox.py`
(repository `bonding_w_geimini`).

The embedding covers:

* `extract_bounding_boxes` (the coordinate decoder): a model of Python
  `json.loads` restricted to the grammar the decoder's callers exercise
  (objects, arrays, strings with the single-character escapes, integral
  numbers, `true`/`false`/`null`; fraction/exponent numerals, `NaN`/
  `Infinity` and `\u` escapes lie outside the modelled domain), plus a
  direct model of `re.findall` for the one fixed fallback pattern
  `"([^"]+)":\s*\[(\d+),\s*(\d+),\s*(\d+),\s*(\d+)\]` (the pattern is
  deterministic: every repeated class is disjoint from the character that
  follows it, so greedy matching never backtracks), plus Python-dict
  insertion-order semantics via an association list whose update keeps the
  first-insertion position of a key and overwrites its value.

* `draw_bounding_boxes` / `draw_text_with_outline` (the renderer): images
  are modelled as a size, an opaque base-content tag and the list of
  drawing commands burned into the pixel buffer, so image equality is
  pixel identity; the PIL drawing primitives are modelled as total
  command-appending operations (clipping of degenerate rectangles is the
  primitive's responsibility, per the renderer's contract); the random
  color source (`random.randint`) and the font-metrics collaborator
  (`ImageFont.getbbox`, resolved by `get_font`) are injected parameters;
  Python float arithmetic on scaled coordinates is modelled by `ℚ` (on
  every concrete value appearing in the claims the float arithmetic is
  exact).

* the in-place mutation of the image passed to `draw_bounding_boxes`
  (through `ImageDraw.Draw`) and the `resized_image.copy()` made by
  `main`: a small heap of images, locations being list indices, so that
  aliasing and mutation of the caller's image are expressible.
-/

namespace BBoxVerify

/-- A JSON value, as produced by the strict parser.  Numbers are modelled
as integers (see the module docstring for the modelled JSON subset). -/
inductive JValue where
  | null : JValue
  | bool (b : Bool) : JValue
  | num (n : Int) : JValue
  | str (s : String) : JValue
  | arr (xs : List JValue) : JValue
  | obj (members : List (String × JValue)) : JValue

/-- ASCII decimal digit, the `\d` class of the fallback pattern (the
Unicode digits `\d` also accepts never occur in the modelled inputs). -/
def isDigitC (c : Char) : Bool := 48 ≤ c.toNat && c.toNat ≤ 57

/-- The `\s` class of Python `re`: space, tab, newline, carriage return,
vertical tab, form feed. -/
def isWsC (c : Char) : Bool :=
  c.toNat = 32 || c.toNat = 9 || c.toNat = 10 || c.toNat = 13 || c.toNat = 11 || c.toNat = 12

/-- JSON whitespace as skipped by Python `json.loads`. -/
def isJsonWs (c : Char) : Bool :=
  c.toNat = 32 || c.toNat = 9 || c.toNat = 10 || c.toNat = 13

/-- Skip JSON whitespace. -/
def skipJWs (cs : List Char) : List Char := cs.dropWhile isJsonWs

/-- The double-quote character. -/
def qc : Char := Char.ofNat 34

/-- Not a double quote: the `[^"]` class of the fallback pattern. -/
def notQuote (c : Char) : Bool := c.toNat != 34

/-- Value of a JSON string escape character (after the backslash). -/
def unescape (c : Char) : Option Char :=
  if c.toNat = 34 then some (Char.ofNat 34)
  else if c.toNat = 92 then some (Char.ofNat 92)
  else if c = '/' then some '/'
  else if c = 'b' then some (Char.ofNat 8)
  else if c = 'f' then some (Char.ofNat 12)
  else if c = 'n' then some (Char.ofNat 10)
  else if c = 'r' then some (Char.ofNat 13)
  else if c = 't' then some (Char.ofNat 9)
  else none

/-- Parse the body of a JSON string (after the opening quote), returning
the decoded characters and the remainder after the closing quote.
Unescaped control characters are rejected, as by strict `json.loads`. -/
def parseStringBody : List Char → Option (List Char × List Char)
  | [] => none
  | c :: rest =>
    if c.toNat = 34 then some ([], rest)
    else if c.toNat = 92 then
      match rest with
      | [] => none
      | e :: rest2 =>
        match unescape e with
        | none => none
        | some u =>
          match parseStringBody rest2 with
          | none => none
          | some (s, r) => some (u :: s, r)
    else if c.toNat < 32 then none
    else
      match parseStringBody rest with
      | none => none
      | some (s, r) => some (c :: s, r)

/-- Numeric value of a list of decimal digits (the semantics of Python
`int` on a string of digits). -/
def parseNatDigits (ds : List Char) : Nat :=
  ds.foldl (fun a c => a * 10 + (c.toNat - 48)) 0

/-- Parse an unsigned JSON integer numeral: digits, no leading zero, and
not followed by a fraction or exponent marker (fraction/exponent numerals
are outside the modelled JSON subset). -/
def parseNumBody (cs : List Char) : Option (Nat × List Char) :=
  let ds := cs.takeWhile isDigitC
  let rest := cs.dropWhile isDigitC
  if ds.isEmpty then none
  else if 1 < ds.length && ds.headD 'x' = '0' then none
  else
    match rest with
    | [] => some (parseNatDigits ds, [])
    | c :: _ =>
      if c = '.' || c = 'e' || c = 'E' then none
      else some (parseNatDigits ds, rest)

/-- Python-dict assignment on an insertion-ordered association list: a
later assignment to an existing key updates its value in place without
moving its position; a new key is appended at the end. -/
def insertOrUpdate {α : Type} : List (String × α) → String → α → List (String × α)
  | [], k, v => [(k, v)]
  | p :: rest, k, v =>
    if p.1 = k then (p.1, v) :: rest else p :: insertOrUpdate rest k v

/-- Python-dict key lookup on an insertion-ordered association list. -/
def lookupA {α : Type} : List (String × α) → String → Option α
  | [], _ => none
  | p :: rest, k => if p.1 = k then some p.2 else lookupA rest k

mutual

/-- Parse one JSON value, skipping leading whitespace.  `fuel` bounds the
recursion depth; every recursive call consumes at least one character, so
`length + 1` units always suffice for the concrete evaluations below. -/
def parseValue : Nat → List Char → Option (JValue × List Char)
  | 0, _ => none
  | Nat.succ fuel, cs =>
    match skipJWs cs with
    | [] => none
    | c :: rest =>
      if c.toNat = 34 then
        match parseStringBody rest with
        | some (s, r) => some (JValue.str (String.mk s), r)
        | none => none
      else if c.toNat = 123 then
        match skipJWs rest with
        | d :: r2 =>
          if d.toNat = 125 then some (JValue.obj [], r2)
          else
            match parseMembers fuel rest [] with
            | some (ms, r3) => some (JValue.obj ms, r3)
            | none => none
        | [] => none
      else if c.toNat = 91 then
        match skipJWs rest with
        | d :: r2 =>
          if d.toNat = 93 then some (JValue.arr [], r2)
          else
            match parseItems fuel rest [] with
            | some (xs, r3) => some (JValue.arr xs, r3)
            | none => none
        | [] => none
      else if c = 't' then
        match rest with
        | 'r' :: 'u' :: 'e' :: r => some (JValue.bool true, r)
        | _ => none
      else if c = 'f' then
        match rest with
        | 'a' :: 'l' :: 's' :: 'e' :: r => some (JValue.bool false, r)
        | _ => none
      else if c = 'n' then
        match rest with
        | 'u' :: 'l' :: 'l' :: r => some (JValue.null, r)
        | _ => none
      else if c = '-' then
        match parseNumBody rest with
        | some (n, r) => some (JValue.num (-(n : Int)), r)
        | none => none
      else if isDigitC c then
        match parseNumBody (c :: rest) with
        | some (n, r) => some (JValue.num (n : Int), r)
        | none => none
      else none

/-- Parse the members of a JSON object (positioned at a key or after a
comma), accumulating them with Python-dict semantics: a repeated key keeps
its first-insertion position and takes the later value. -/
def parseMembers : Nat → List Char → List (String × JValue) → Option (List (String × JValue) × List Char)
  | 0, _, _ => none
  | Nat.succ fuel, cs, acc =>
    match skipJWs cs with
    | [] => none
    | c :: rest =>
      if c.toNat = 34 then
        match parseStringBody rest with
        | none => none
        | some (k, r1) =>
          match skipJWs r1 with
          | [] => none
          | c2 :: r2 =>
            if c2 = ':' then
              match parseValue fuel r2 with
              | none => none
              | some (v, r3) =>
                match skipJWs r3 with
                | [] => none
                | c3 :: r4 =>
                  if c3 = ',' then parseMembers fuel r4 (insertOrUpdate acc (String.mk k) v)
                  else if c3.toNat = 125 then some (insertOrUpdate acc (String.mk k) v, r4)
                  else none
            else none
      else none

/-- Parse the items of a JSON array (positioned at an item or after a
comma). -/
def parseItems : Nat → List Char → List JValue → Option (List JValue × List Char)
  | 0, _, _ => none
  | Nat.succ fuel, cs, acc =>
    match parseValue fuel cs with
    | none => none
    | some (v, r) =>
      match skipJWs r with
      | [] => none
      | c :: r2 =>
        if c = ',' then parseItems fuel r2 (acc ++ [v])
        else if c.toNat = 93 then some (acc ++ [v], r2)
        else none

end

/-- Model of `json.loads`: parse one value and require only whitespace to
follow, as Python does; any leftover text is a `JSONDecodeError`. -/
def jsonLoads (s : String) : Option JValue :=
  match parseValue (s.data.length + 1) s.data with
  | some (v, rest) => if (skipJWs rest).isEmpty then some v else none
  | none => none

/-- Try to match the fallback pattern
`"([^"]+)":\s*\[(\d+),\s*(\d+),\s*(\d+),\s*(\d+)\]` at the very start of
`cs`, after the digits-and-comma part, positioned just after the opening
bracket; `label` is the already-captured first group.  Returns the
captures and the remainder of the text after the match. -/
def matchNums4 (label : String) (cs : List Char) : Option ((String × List Nat) × List Char) :=
  let d1 := cs.takeWhile isDigitC
  if d1.isEmpty then none else
  match cs.dropWhile isDigitC with
  | c1 :: r1 =>
    if c1 = ',' then
      let r1b := r1.dropWhile isWsC
      let d2 := r1b.takeWhile isDigitC
      if d2.isEmpty then none else
      match r1b.dropWhile isDigitC with
      | c2 :: r2 =>
        if c2 = ',' then
          let r2b := r2.dropWhile isWsC
          let d3 := r2b.takeWhile isDigitC
          if d3.isEmpty then none else
          match r2b.dropWhile isDigitC with
          | c3 :: r3 =>
            if c3 = ',' then
              let r3b := r3.dropWhile isWsC
              let d4 := r3b.takeWhile isDigitC
              if d4.isEmpty then none else
              match r3b.dropWhile isDigitC with
              | c4 :: r4 =>
                if c4.toNat = 93 then
                  some ((label, [parseNatDigits d1, parseNatDigits d2,
                                 parseNatDigits d3, parseNatDigits d4]), r4)
                else none
              | [] => none
            else none
          | [] => none
        else none
      | [] => none
    else none
  | [] => none

/-- Try to match the fallback pattern at the very start of `cs`: a quote,
a nonempty run of non-quote characters (group 1), the closing quote, a
colon, optional whitespace, an opening bracket, then the four integers.
The pattern is deterministic, so greedy runs need no backtracking. -/
def matchAt (cs : List Char) : Option ((String × List Nat) × List Char) :=
  match cs with
  | [] => none
  | c0 :: rest =>
    if c0.toNat = 34 then
      let label := rest.takeWhile notQuote
      if label.isEmpty then none else
      match rest.dropWhile notQuote with
      | q :: c1 :: rest2 =>
        if q.toNat = 34 then
          if c1 = ':' then
            match rest2.dropWhile isWsC with
            | b :: rest3 =>
              if b.toNat = 91 then matchNums4 (String.mk label) rest3 else none
            | [] => none
          else none
        else none
      | _ => none
    else none

/-- `re.findall` for the fallback pattern: scan left to right, at each
position try a match; on success emit its captures and resume after the
matched span, otherwise advance one character.  Every match consumes at
least one character, so `fuel = cs.length` always suffices. -/
def findallAux : Nat → List Char → List (String × List Nat)
  | 0, _ => []
  | Nat.succ fuel, cs =>
    match cs with
    | [] => []
    | c :: rest =>
      match matchAt (c :: rest) with
      | some (cap, r) => cap :: findallAux fuel r
      | none => findallAux fuel rest

/-- All non-overlapping matches of the fallback pattern, in order of
appearance, each as (label, the four captured integers). -/
def findall (s : String) : List (String × List Nat) :=
  findallAux s.data.length s.data

/-- One fallback match turned into a decoder-result entry:
`list(map(int, coords))` of the dict comprehension on line 100. -/
def matchEntry (p : String × List Nat) : String × JValue :=
  (p.1, JValue.arr (p.2.map (fun n => JValue.num (n : Int))))

/-- Build a Python dict (insertion-ordered, last write wins) from a list
of key-value pairs, in order. -/
def buildMap {α : Type} (ms : List (String × α)) : List (String × α) :=
  ms.foldl (fun m p => insertOrUpdate m p.1 p.2) []

/-- `extract_bounding_boxes` of `bbox.py` (lines 89-100): try strict JSON
parsing and return its result unchanged on success; on a decode error,
fall back to the pattern scan and build a dict from the matches. -/
def extract_bounding_boxes (text : String) : JValue :=
  match jsonLoads text with
  | some v => v
  | none => JValue.obj (buildMap ((findall text).map matchEntry))

/-- Is this JSON value a number? -/
def isNumV : JValue → Bool
  | JValue.num _ => true
  | _ => false

/-- Is this JSON value a 4-element array of numbers? -/
def isBox4 : JValue → Bool
  | JValue.arr xs => (xs.length == 4) && xs.all isNumV
  | _ => false

/-- Is this JSON value a `LabelledBoxes`, i.e. a mapping from labels to
4-element numeric boxes? -/
def isLabelledBoxes : JValue → Bool
  | JValue.obj ms => ms.all (fun p => isBox4 p.2)
  | _ => false

/-- Last value associated to a key in a list of matches, if any. -/
def lastAssoc {α : Type} : List (String × α) → String → Option α
  | [], _ => none
  | p :: rest, k =>
    match lastAssoc rest k with
    | some v => some v
    | none => if p.1 = k then some p.2 else none

/-- The keys of a list, deduplicated keeping the first appearance of each
key, in order of first appearance. -/
def firstKeys (ks : List String) : List String :=
  ks.foldl (fun acc k => if k ∈ acc then acc else acc ++ [k]) []

/-- A box as the renderer consumes it: the four normalized coordinates, in
the order `[ymin, xmin, ymax, xmax]` of the prompt (Python unpacks exactly
four elements on line 71). -/
structure NormalizedBox where
  ymin : ℚ
  xmin : ℚ
  ymax : ℚ
  xmax : ℚ
deriving DecidableEq

/-- The result of `font.getbbox(label)`: the measured text bounding box
`(x0, y0, x1, y1)`, an external font-metrics collaborator. -/
structure FontBox where
  x0 : Int
  y0 : Int
  x1 : Int
  y1 : Int
deriving DecidableEq

/-- A drawing command burned into the pixel buffer by a PIL primitive. -/
inductive DrawCmd where
  | rectOutline (x0 y0 x1 y1 : ℚ) (color : String) (lineWidth : Nat) : DrawCmd
  | rectFill (x0 y0 x1 y1 : ℚ) (color : String) : DrawCmd
  | textCmd (x y : ℚ) (s : String) (color : String) : DrawCmd
deriving DecidableEq

/-- An in-memory image: its size, an opaque tag for the base pixel
content, and the drawing commands burned into the buffer so far.  Equality
of `PImage` values is pixel identity. -/
structure PImage where
  width : Nat
  height : Nat
  base : Nat
  ops : List DrawCmd
deriving DecidableEq

/-- Hexadecimal digit character (lowercase), for `"{:06x}".format`. -/
def hexDigitChar (n : Nat) : Char :=
  if n < 10 then Char.ofNat (48 + n) else Char.ofNat (87 + n)

/-- `generate_random_color` (lines 25-29) with the `random.randint`
draw injected: format the 24-bit value as `#` plus six lowercase hex
digits. -/
def generate_random_color (r : Nat) : String :=
  String.mk ['#', hexDigitChar (r / 1048576 % 16), hexDigitChar (r / 65536 % 16),
             hexDigitChar (r / 4096 % 16), hexDigitChar (r / 256 % 16),
             hexDigitChar (r / 16 % 16), hexDigitChar (r % 16)]

/-- `draw_text_with_outline` (lines 47-58): four black layers at the
diagonal offsets, then the text itself at the exact position, last. -/
def draw_text_with_outline (img : PImage) (text : String) (x y : ℚ)
    (textColor outlineColor : String) : PImage :=
  { img with ops := img.ops ++
      [DrawCmd.textCmd (x - 1) (y - 1) text outlineColor,
       DrawCmd.textCmd (x + 1) (y - 1) text outlineColor,
       DrawCmd.textCmd (x - 1) (y + 1) text outlineColor,
       DrawCmd.textCmd (x + 1) (y + 1) text outlineColor,
       DrawCmd.textCmd x y text textColor] }

/-- The four scaled pixel coordinates of a box. -/
structure ScaledBox where
  ymin : ℚ
  xmin : ℚ
  ymax : ℚ
  xmax : ℚ
deriving DecidableEq

/-- The coordinate scaling of line 71:
`[coord / 1000 * dim for coord, dim in zip(bbox, [height, width, height, width])]`. -/
def scaleBoxCoords (width height : ℚ) (b : NormalizedBox) : ScaledBox :=
  ⟨b.ymin / 1000 * height, b.xmin / 1000 * width,
   b.ymax / 1000 * height, b.xmax / 1000 * width⟩

/-- The body of the per-box loop of `draw_bounding_boxes` (lines 69-86):
scale, draw the 3px outline rectangle, measure the label, expand the local
`xmax`/`ymax` if the box is smaller than the label plate, draw the filled
label plate, draw the outlined label text.  `color` is the injected
`random.randint(0, 0xFFFFFF)` draw for this iteration and `fontBBox` the
font-metrics collaborator. -/
def drawOneBox (color : Nat) (fontBBox : String → FontBox) (img : PImage)
    (label : String) (b : NormalizedBox) : PImage :=
  let colorStr := generate_random_color color
  let s := scaleBoxCoords (img.width : ℚ) (img.height : ℚ) b
  let img1 := { img with ops := img.ops ++
      [DrawCmd.rectOutline s.xmin s.ymin s.xmax s.ymax colorStr 3] }
  let lb := fontBBox label
  let labelWidth : ℚ := ((lb.x1 - lb.x0 : Int) : ℚ) + 10
  let labelHeight : ℚ := ((lb.y1 - lb.y0 : Int) : ℚ) + 10
  let xmax2 := if s.xmax - s.xmin < labelWidth then s.xmin + labelWidth else s.xmax
  let ymax2 := if s.ymax - s.ymin < labelHeight then s.ymin + labelHeight else s.ymax
  let img2 := { img1 with ops := img1.ops ++
      [DrawCmd.rectFill s.xmin s.ymin (s.xmin + labelWidth) (s.ymin + labelHeight) colorStr] }
  draw_text_with_outline img2 label (s.xmin + 5) (s.ymin + 5) "white" "black"

/-- `draw_bounding_boxes` (lines 60-87): iterate the boxes in mapping
order, drawing each one into the image; `colors i` is the random color
value consumed by iteration `i`. -/
def draw_bounding_boxes (colors : Nat → Nat) (fontBBox : String → FontBox)
    (img : PImage) (bboxes : List (String × NormalizedBox)) : PImage :=
  (bboxes.enum).foldl (fun im p => drawOneBox (colors p.1) fontBBox im p.2.1 p.2.2) img

/-- The per-box loop body with the `xmax`/`ymax` expansion step (lines
80-83) removed; the variant `draw_bounding_boxes` is compared against. -/
def drawOneBoxNoExpand (color : Nat) (fontBBox : String → FontBox) (img : PImage)
    (label : String) (b : NormalizedBox) : PImage :=
  let colorStr := generate_random_color color
  let s := scaleBoxCoords (img.width : ℚ) (img.height : ℚ) b
  let img1 := { img with ops := img.ops ++
      [DrawCmd.rectOutline s.xmin s.ymin s.xmax s.ymax colorStr 3] }
  let lb := fontBBox label
  let labelWidth : ℚ := ((lb.x1 - lb.x0 : Int) : ℚ) + 10
  let labelHeight : ℚ := ((lb.y1 - lb.y0 : Int) : ℚ) + 10
  let img2 := { img1 with ops := img1.ops ++
      [DrawCmd.rectFill s.xmin s.ymin (s.xmin + labelWidth) (s.ymin + labelHeight) colorStr] }
  draw_text_with_outline img2 label (s.xmin + 5) (s.ymin + 5) "white" "black"

/-- `draw_bounding_boxes` with the expansion step removed. -/
def draw_bounding_boxes_noexpand (colors : Nat → Nat) (fontBBox : String → FontBox)
    (img : PImage) (bboxes : List (String × NormalizedBox)) : PImage :=
  (bboxes.enum).foldl (fun im p => drawOneBoxNoExpand (colors p.1) fontBBox im p.2.1 p.2.2) img

/-- A placeholder image, only used as the default of out-of-range heap
reads. -/
def blankImage : PImage := ⟨0, 0, 0, []⟩

/-- A heap of images; a location is an index into the list.  This makes
aliasing and in-place mutation expressible. -/
structure Heap where
  images : List PImage
deriving DecidableEq

/-- Read the image at a heap location. -/
def Heap.getImg (h : Heap) (loc : Nat) : PImage :=
  h.images.getD loc blankImage

/-- `image.copy()`: allocate a fresh location holding the same pixel
content, returning the new heap and the new location. -/
def Heap.copyImage (h : Heap) (loc : Nat) : Heap × Nat :=
  (⟨h.images ++ [h.getImg loc]⟩, h.images.length)

/-- `draw_bounding_boxes(image, bboxes)` at the reference level:
`ImageDraw.Draw(image)` draws into the image object in place, and the
function returns that same object (line 87 returns `image`). -/
def draw_bounding_boxes_ref (colors : Nat → Nat) (fontBBox : String → FontBox)
    (h : Heap) (loc : Nat) (bboxes : List (String × NormalizedBox)) : Heap × Nat :=
  (⟨h.images.set loc (draw_bounding_boxes colors fontBBox (h.getImg loc) bboxes)⟩, loc)

/-- The render call of `main` (line 151):
`draw_bounding_boxes(resized_image.copy(), bboxes)` — copy first, then
draw into the copy. -/
def renderPipeline (colors : Nat → Nat) (fontBBox : String → FontBox)
    (h : Heap) (loc : Nat) (bboxes : List (String × NormalizedBox)) : Heap × Nat :=
  let copied := h.copyImage loc
  draw_bounding_boxes_ref colors fontBBox copied.1 copied.2 bboxes

/-! ## Theorems -/

theorem lookupA_insertOrUpdate {α : Type} (m : List (String × α)) (k : String) (v : α)
    (k' : String) :
    lookupA (insertOrUpdate m k v) k' = if k' = k then some v else lookupA m k' := by
  induction m with
  | nil =>
    by_cases hk : k' = k
    · simp [insertOrUpdate, lookupA, hk]
    · have hk2 : ¬ k = k' := fun e => hk e.symm
      simp [insertOrUpdate, lookupA, hk, hk2]
  | cons p rest ih =>
    by_cases h1 : p.1 = k
    · by_cases hk : k' = k
      · simp [insertOrUpdate, lookupA, h1, hk]
      · have hk2 : ¬ k = k' := fun e => hk e.symm
        have h3 : ¬ p.1 = k' := h1 ▸ hk2
        simp [insertOrUpdate, lookupA, h1, hk, hk2, h3]
    · simp only [insertOrUpdate, if_neg h1]
      by_cases h2 : p.1 = k'
      · have hk : ¬ k' = k := fun e => h1 (h2.trans e)
        simp [lookupA, h2, hk]
      · simp [lookupA, h2, ih]

theorem keys_insertOrUpdate {α : Type} (m : List (String × α)) (k : String) (v : α) :
    (insertOrUpdate m k v).map Prod.fst =
      if k ∈ m.map Prod.fst then m.map Prod.fst else m.map Prod.fst ++ [k] := by
  induction m with
  | nil => simp [insertOrUpdate]
  | cons p rest ih =>
    by_cases h1 : p.1 = k
    · simp [insertOrUpdate, h1]
    · have h1s : ¬ k = p.1 := fun e => h1 e.symm
      simp only [insertOrUpdate, if_neg h1, List.map_cons, ih, List.mem_cons]
      by_cases h2 : k ∈ rest.map Prod.fst <;> simp [h2, h1s]

theorem lookupA_foldl_insert {α : Type} (ms : List (String × α))
    (acc : List (String × α)) (k : String) :
    lookupA (ms.foldl (fun m p => insertOrUpdate m p.1 p.2) acc) k =
      match lastAssoc ms k with
      | some v => some v
      | none => lookupA acc k := by
  induction ms generalizing acc with
  | nil => simp [lastAssoc]
  | cons p rest ih =>
    simp only [List.foldl_cons, ih, lastAssoc, lookupA_insertOrUpdate]
    cases lastAssoc rest k with
    | some v => rfl
    | none =>
      by_cases h : p.1 = k
      · simp [h]
      · have : ¬ k = p.1 := fun e => h e.symm
        simp [h, this]

theorem keys_foldl_insert {α : Type} (ms : List (String × α))
    (acc : List (String × α)) :
    (ms.foldl (fun m p => insertOrUpdate m p.1 p.2) acc).map Prod.fst =
      (ms.map Prod.fst).foldl (fun ks k => if k ∈ ks then ks else ks ++ [k])
        (acc.map Prod.fst) := by
  induction ms generalizing acc with
  | nil => rfl
  | cons p rest ih =>
    simp only [List.foldl_cons, List.map_cons, ih, keys_insertOrUpdate]

theorem lookupA_buildMap {α : Type} (ms : List (String × α)) (k : String) :
    lookupA (buildMap ms) k = lastAssoc ms k := by
  unfold buildMap
  rw [lookupA_foldl_insert]
  cases lastAssoc ms k <;> simp [lookupA]

theorem keys_buildMap {α : Type} (ms : List (String × α)) :
    (buildMap ms).map Prod.fst = firstKeys (ms.map Prod.fst) := by
  unfold buildMap firstKeys
  rw [keys_foldl_insert]
  simp

theorem lastAssoc_map_matchEntry (ms : List (String × List Nat)) (k : String) :
    lastAssoc (ms.map matchEntry) k =
      Option.map (fun cs => JValue.arr (cs.map (fun n => JValue.num (n : Int))))
        (lastAssoc ms k) := by
  induction ms with
  | nil => rfl
  | cons p rest ih =>
    simp only [List.map_cons, lastAssoc, ih, matchEntry]
    cases lastAssoc rest k with
    | some v => rfl
    | none =>
      by_cases h : p.1 = k <;> simp [h]

theorem keys_map_matchEntry (ms : List (String × List Nat)) :
    (ms.map matchEntry).map Prod.fst = ms.map Prod.fst := by
  induction ms with
  | nil => rfl
  | cons p rest ih => simp [matchEntry, ih]

/-- C2: when strict parsing fails, the decoder returns the mapping built
from the fallback matches: it contains exactly the matched labels, in
order of first appearance, and a repeated label keeps its first-insertion
position while the later match's coordinates overwrite the earlier
ones. -/
theorem decode_fallback_recovers_matches (text : String)
    (h : jsonLoads text = none) :
    extract_bounding_boxes text = JValue.obj (buildMap ((findall text).map matchEntry)) ∧
    (buildMap ((findall text).map matchEntry)).map Prod.fst =
      firstKeys ((findall text).map Prod.fst) ∧
    ∀ k, lookupA (buildMap ((findall text).map matchEntry)) k =
      Option.map (fun cs => JValue.arr (cs.map (fun n => JValue.num (n : Int))))
        (lastAssoc (findall text) k) := by
  refine ⟨?_, ?_, ?_⟩
  · unfold extract_bounding_boxes
    rw [h]
  · rw [keys_buildMap, keys_map_matchEntry]
  · intro k
    rw [lookupA_buildMap]
    exact lastAssoc_map_matchEntry _ k

/-- Witness for C2 at the spec's second scenario: invalid structured data
holding two pattern matches. -/
theorem decode_fallback_recovers_matches_witness :
    jsonLoads "Here are the results: \"dog\": [0, 0, 500, 500] and \"cat\": [500, 500, 1000, 1000]" = none ∧
    findall "Here are the results: \"dog\": [0, 0, 500, 500] and \"cat\": [500, 500, 1000, 1000]" =
      [("dog", [0, 0, 500, 500]), ("cat", [500, 500, 1000, 1000])] ∧
    (extract_bounding_boxes "Here are the results: \"dog\": [0, 0, 500, 500] and \"cat\": [500, 500, 1000, 1000]" =
      JValue.obj (buildMap ((findall "Here are the results: \"dog\": [0, 0, 500, 500] and \"cat\": [500, 500, 1000, 1000]").map matchEntry)) ∧
    (buildMap ((findall "Here are the results: \"dog\": [0, 0, 500, 500] and \"cat\": [500, 500, 1000, 1000]").map matchEntry)).map Prod.fst =
      firstKeys ((findall "Here are the results: \"dog\": [0, 0, 500, 500] and \"cat\": [500, 500, 1000, 1000]").map Prod.fst) ∧
    ∀ k, lookupA (buildMap ((findall "Here are the results: \"dog\": [0, 0, 500, 500] and \"cat\": [500, 500, 1000, 1000]").map matchEntry)) k =
      Option.map (fun cs => JValue.arr (cs.map (fun n => JValue.num (n : Int))))
        (lastAssoc (findall "Here are the results: \"dog\": [0, 0, 500, 500] and \"cat\": [500, 500, 1000, 1000]") k)) :=
  ⟨rfl, rfl, decode_fallback_recovers_matches _ rfl⟩

/-- C1: the claim asserts the decoder's result "is always a LabelledBoxes,
i.e. a mapping from labels to 4-element numeric boxes, never any other
kind of value"; but `extract_bounding_boxes` returns the result of strict
parsing unchecked, so the input `"5"` yields the number 5, which is not a
mapping at all. -/
theorem decode_result_not_always_boxes :
    extract_bounding_boxes "5" = JValue.num 5 ∧
    isLabelledBoxes (extract_bounding_boxes "5") = false :=
  ⟨rfl, rfl⟩

/-- C1 (amended): the decoder is total, and on total failure to parse —
strict parsing fails and the fallback pattern has no match — it returns an
empty mapping; but when strict parsing succeeds its result is the parsed
value as-is, which need not be a mapping to 4-element numeric boxes. -/
theorem decode_empty_on_total_failure (text : String)
    (h1 : jsonLoads text = none) (h2 : findall text = []) :
    extract_bounding_boxes text = JValue.obj [] := by
  unfold extract_bounding_boxes
  rw [h1, h2]
  rfl

/-- Witness for C1 (amended) at the input "no boxes here". -/
theorem decode_empty_on_total_failure_witness :
    jsonLoads "no boxes here" = none ∧ findall "no boxes here" = [] ∧
    extract_bounding_boxes "no boxes here" = JValue.obj [] :=
  ⟨rfl, rfl, decode_empty_on_total_failure "no boxes here" rfl rfl⟩

/-- C3: for every text that strict parsing turns into a mapping from
strings to 4-element numeric arrays, the decoder returns exactly that
mapping, every label present and every coordinate value unchanged. -/
theorem decode_strict_returns_mapping (text : String) (m : List (String × JValue))
    (h1 : jsonLoads text = some (JValue.obj m))
    (h2 : isLabelledBoxes (JValue.obj m) = true) :
    extract_bounding_boxes text = JValue.obj m := by
  unfold extract_bounding_boxes
  rw [h1]

/-- Witness for C3 at the input of the spec's first scenario. -/
theorem decode_strict_returns_mapping_witness :
    jsonLoads "\x7b\"cat\": [100, 200, 300, 400]\x7d" =
      some (JValue.obj [("cat", JValue.arr
        [JValue.num 100, JValue.num 200, JValue.num 300, JValue.num 400])]) ∧
    isLabelledBoxes (JValue.obj [("cat", JValue.arr
        [JValue.num 100, JValue.num 200, JValue.num 300, JValue.num 400])]) = true ∧
    extract_bounding_boxes "\x7b\"cat\": [100, 200, 300, 400]\x7d" =
      JValue.obj [("cat", JValue.arr
        [JValue.num 100, JValue.num 200, JValue.num 300, JValue.num 400])] :=
  ⟨rfl, rfl, decode_strict_returns_mapping _ _ rfl rfl⟩

theorem takeWhile_append_all (p : Char → Bool) (xs : List Char)
    (h : ∀ x ∈ xs, p x = true) (ys : List Char) :
    (xs ++ ys).takeWhile p = xs ++ ys.takeWhile p := by
  induction xs with
  | nil => rfl
  | cons a t ih =>
    have ha : p a = true := h a (by simp)
    simp [List.takeWhile_cons, ha, ih (fun x hx => h x (by simp [hx]))]

theorem dropWhile_append_all (p : Char → Bool) (xs : List Char)
    (h : ∀ x ∈ xs, p x = true) (ys : List Char) :
    (xs ++ ys).dropWhile p = ys.dropWhile p := by
  induction xs with
  | nil => rfl
  | cons a t ih =>
    have ha : p a = true := h a (by simp)
    simp [List.dropWhile_cons, ha, ih (fun x hx => h x (by simp [hx]))]

theorem digit_not_ws (c : Char) (h : isDigitC c = true) : isWsC c = false := by
  simp only [isDigitC, Bool.and_eq_true, decide_eq_true_eq] at h
  simp only [isWsC, Bool.or_eq_false_iff, decide_eq_false_iff_not]
  omega

theorem findallAux_nil (f : Nat) : findallAux f [] = [] := by
  cases f <;> rfl

/-- C8: the claim asserts the fallback pattern tolerates arbitrary
whitespace between all tokens, including before the colon, after the
opening bracket, before the commas and before the closing bracket; but
the pattern `"([^"]+)":\s*\[(\d+),\s*(\d+),\s*(\d+),\s*(\d+)\]` has no
`\s*` at those four places, so each such input yields no match. -/
theorem fallback_pattern_rejects_extra_whitespace :
    findall "\"a\" : [1,2,3,4]" = [] ∧
    findall "\"a\": [ 1,2,3,4]" = [] ∧
    findall "\"a\": [1 ,2,3,4]" = [] ∧
    findall "\"a\": [1,2,3,4 ]" = [] :=
  ⟨rfl, rfl, rfl, rfl⟩

/-- C8 (amended): the fallback pattern matches the shape
`"<label>": [<int>, <int>, <int>, <int>]` with arbitrary whitespace
allowed exactly after the colon and after each comma (and none before the
colon, after the opening bracket, before a comma or before the closing
bracket), capturing the label and the four integers. -/
theorem fallback_pattern_matches_allowed_whitespace
    (label w0 w1 w2 w3 d1 d2 d3 d4 : List Char)
    (hl : label ≠ []) (hlq : ∀ c ∈ label, notQuote c = true)
    (hw0 : ∀ c ∈ w0, isWsC c = true) (hw1 : ∀ c ∈ w1, isWsC c = true)
    (hw2 : ∀ c ∈ w2, isWsC c = true) (hw3 : ∀ c ∈ w3, isWsC c = true)
    (hd1 : d1 ≠ []) (hd1d : ∀ c ∈ d1, isDigitC c = true)
    (hd2 : d2 ≠ []) (hd2d : ∀ c ∈ d2, isDigitC c = true)
    (hd3 : d3 ≠ []) (hd3d : ∀ c ∈ d3, isDigitC c = true)
    (hd4 : d4 ≠ []) (hd4d : ∀ c ∈ d4, isDigitC c = true) :
    findall (String.mk (qc :: label ++ qc :: ':' :: w0 ++ '[' ::
        d1 ++ ',' :: w1 ++ d2 ++ ',' :: w2 ++ d3 ++ ',' :: w3 ++ d4 ++ [']'])) =
      [(String.mk label, [parseNatDigits d1, parseNatDigits d2,
        parseNatDigits d3, parseNatDigits d4])] := by
  obtain ⟨l0, lt, rfl⟩ := List.exists_cons_of_ne_nil hl
  obtain ⟨e2, t2, rfl⟩ := List.exists_cons_of_ne_nil hd2
  obtain ⟨e3, t3, rfl⟩ := List.exists_cons_of_ne_nil hd3
  obtain ⟨e4, t4, rfl⟩ := List.exists_cons_of_ne_nil hd4
  have hqnq : notQuote qc = false := by decide
  have hbws : isWsC '[' = false := by decide
  have hcdg : isDigitC ',' = false := by decide
  have hbdg : isDigitC ']' = false := by decide
  have he2 : isDigitC e2 = true := hd2d e2 (by simp)
  have he3 : isDigitC e3 = true := hd3d e3 (by simp)
  have he4 : isDigitC e4 = true := hd4d e4 (by simp)
  have ht2 : ∀ c ∈ t2, isDigitC c = true := fun c hc => hd2d c (by simp [hc])
  have ht3 : ∀ c ∈ t3, isDigitC c = true := fun c hc => hd3d c (by simp [hc])
  have ht4 : ∀ c ∈ t4, isDigitC c = true := fun c hc => hd4d c (by simp [hc])
  obtain ⟨e1, t1, rfl⟩ := List.exists_cons_of_ne_nil hd1
  have he1 : isDigitC e1 = true := hd1d e1 (by simp)
  have ht1 : ∀ c ∈ t1, isDigitC c = true := fun c hc => hd1d c (by simp [hc])
  have hlt : ∀ c ∈ lt, notQuote c = true := fun c hc => hlq c (by simp [hc])
  have hl0 : notQuote l0 = true := hlq l0 (by simp)
  have h34 : qc.toNat = 34 := by decide
  have h91 : ('[' : Char).toNat = 91 := by decide
  have h93 : (']' : Char).toNat = 93 := by decide
  have hmatch : matchAt (qc :: l0 :: (lt ++ qc :: ':' :: (w0 ++ '[' :: e1 :: (t1 ++
      ',' :: (w1 ++ e2 :: (t2 ++ ',' :: (w2 ++ e3 :: (t3 ++ ',' :: (w3 ++ e4 :: (t4 ++
      [']'])))))))))) =
      some ((String.mk (l0 :: lt), [parseNatDigits (e1 :: t1), parseNatDigits (e2 :: t2),
        parseNatDigits (e3 :: t3), parseNatDigits (e4 :: t4)]), []) := by
    simp [matchAt, matchNums4, List.takeWhile_cons, List.dropWhile_cons,
      takeWhile_append_all _ _ hlt, dropWhile_append_all _ _ hlt,
      takeWhile_append_all _ _ ht1, dropWhile_append_all _ _ ht1,
      takeWhile_append_all _ _ ht2, dropWhile_append_all _ _ ht2,
      takeWhile_append_all _ _ ht3, dropWhile_append_all _ _ ht3,
      takeWhile_append_all _ _ ht4, dropWhile_append_all _ _ ht4,
      dropWhile_append_all _ _ hw0, dropWhile_append_all _ _ hw1,
      dropWhile_append_all _ _ hw2, dropWhile_append_all _ _ hw3,
      hl0, hqnq, he1, he2, he3, he4, hcdg, hbdg, hbws,
      digit_not_ws e2 he2, digit_not_ws e3 he3, digit_not_ws e4 he4,
      h34, h91, h93]
  show findallAux _ _ = _
  simp only [List.cons_append, List.append_assoc, List.length_cons, findallAux,
    hmatch, findallAux_nil]

/-- Witness for C8 (amended): label "a b", whitespace of each allowed
kind, digits of more than one character. -/
theorem fallback_pattern_matches_allowed_whitespace_witness :
    (('a' :: ' ' :: ['b']) ≠ [] ∧ (['1', '0'] : List Char) ≠ []) ∧
    findall (String.mk (qc :: ('a' :: ' ' :: ['b']) ++ qc :: ':' :: [' ', '\t'] ++ '[' ::
        ['1', '0'] ++ ',' :: ['\n'] ++ ['2'] ++ ',' :: [] ++ ['3'] ++ ',' :: [' '] ++
        ['4', '5'] ++ [']'])) =
      [(String.mk ('a' :: ' ' :: ['b']), [parseNatDigits ['1', '0'], parseNatDigits ['2'],
        parseNatDigits ['3'], parseNatDigits ['4', '5']])] :=
  ⟨⟨by decide, by decide⟩,
    fallback_pattern_matches_allowed_whitespace ('a' :: ' ' :: ['b'])
      [' ', '\t'] ['\n'] [] [' '] ['1', '0'] ['2'] ['3'] ['4', '5']
      (by decide) (by decide) (by decide) (by decide) (by decide) (by decide)
      (by decide) (by decide) (by decide) (by decide) (by decide) (by decide)
      (by decide) (by decide)⟩

/-- C4: the renderer converts each of the four normalized coordinates by
`pixel = normalized / 1000 * dimension`, the image height scaling the two
y-coordinates and the image width the two x-coordinates; in particular the
box `[500, 250, 750, 500]` on a 400×800 (width×height) image scales to
exactly xmin = 100, ymin = 400, xmax = 200, ymax = 600. -/
theorem scaling_formula_and_instance :
    (∀ (w h : ℚ) (b : NormalizedBox), scaleBoxCoords w h b =
      ⟨b.ymin / 1000 * h, b.xmin / 1000 * w, b.ymax / 1000 * h, b.xmax / 1000 * w⟩) ∧
    scaleBoxCoords 400 800 ⟨500, 250, 750, 500⟩ = ⟨400, 100, 600, 200⟩ := by
  constructor
  · intro w h b
    rfl
  · norm_num [scaleBoxCoords]

/-- C6: rendering an empty mapping returns an image pixel-identical to the
input: the per-box loop never runs, so no rectangle, label plate or text
command is burned into the buffer. -/
theorem render_empty_mapping_identity (colors : Nat → Nat)
    (fontBBox : String → FontBox) (img : PImage) :
    draw_bounding_boxes colors fontBBox img [] = img :=
  rfl

/-- C9: for every box the renderer draws the filled label plate exactly
from (xmin, ymin) to (xmin + label_width, ymin + label_height) in the
box's color, then draws the label text at (xmin + 5, ymin + 5): four black
layers at the diagonal offsets (±1, ±1) first, one white layer at the
exact position last. -/
theorem label_plate_and_outlined_text (color : Nat) (fontBBox : String → FontBox)
    (img : PImage) (label : String) (b : NormalizedBox) :
    (drawOneBox color fontBBox img label b).ops = img.ops ++
      [DrawCmd.rectOutline (scaleBoxCoords (img.width : ℚ) (img.height : ℚ) b).xmin
         (scaleBoxCoords (img.width : ℚ) (img.height : ℚ) b).ymin
         (scaleBoxCoords (img.width : ℚ) (img.height : ℚ) b).xmax
         (scaleBoxCoords (img.width : ℚ) (img.height : ℚ) b).ymax
         (generate_random_color color) 3,
       DrawCmd.rectFill (scaleBoxCoords (img.width : ℚ) (img.height : ℚ) b).xmin
         (scaleBoxCoords (img.width : ℚ) (img.height : ℚ) b).ymin
         ((scaleBoxCoords (img.width : ℚ) (img.height : ℚ) b).xmin +
           (((fontBBox label).x1 - (fontBBox label).x0 : Int) : ℚ) + 10)
         ((scaleBoxCoords (img.width : ℚ) (img.height : ℚ) b).ymin +
           (((fontBBox label).y1 - (fontBBox label).y0 : Int) : ℚ) + 10)
         (generate_random_color color),
       DrawCmd.textCmd ((scaleBoxCoords (img.width : ℚ) (img.height : ℚ) b).xmin + 5 - 1)
         ((scaleBoxCoords (img.width : ℚ) (img.height : ℚ) b).ymin + 5 - 1) label "black",
       DrawCmd.textCmd ((scaleBoxCoords (img.width : ℚ) (img.height : ℚ) b).xmin + 5 + 1)
         ((scaleBoxCoords (img.width : ℚ) (img.height : ℚ) b).ymin + 5 - 1) label "black",
       DrawCmd.textCmd ((scaleBoxCoords (img.width : ℚ) (img.height : ℚ) b).xmin + 5 - 1)
         ((scaleBoxCoords (img.width : ℚ) (img.height : ℚ) b).ymin + 5 + 1) label "black",
       DrawCmd.textCmd ((scaleBoxCoords (img.width : ℚ) (img.height : ℚ) b).xmin + 5 + 1)
         ((scaleBoxCoords (img.width : ℚ) (img.height : ℚ) b).ymin + 5 + 1) label "black",
       DrawCmd.textCmd ((scaleBoxCoords (img.width : ℚ) (img.height : ℚ) b).xmin + 5)
         ((scaleBoxCoords (img.width : ℚ) (img.height : ℚ) b).ymin + 5) label "white"] := by
  simp [drawOneBox, draw_text_with_outline]
  ring_nf
  simp [add_assoc, add_comm, add_left_comm]

/-- C5: the renderer never rejects a box: even when a box's coordinates
are inverted or outside [0, 1000], the outline rectangle command with
exactly the (unclamped, unvalidated) scaled coordinates is drawn into the
image — the degenerate rectangle is passed through to the drawing
primitive, whose contract is to clip or no-op, not an error path. -/
theorem render_tolerates_degenerate_boxes (colors : Nat → Nat)
    (fontBBox : String → FontBox) (img : PImage) (label : String) (b : NormalizedBox)
    (h : b.ymax < b.ymin ∨ b.xmax < b.xmin ∨ b.ymin < 0 ∨ b.xmin < 0 ∨
      1000 < b.ymax ∨ 1000 < b.xmax) :
    DrawCmd.rectOutline (scaleBoxCoords (img.width : ℚ) (img.height : ℚ) b).xmin
      (scaleBoxCoords (img.width : ℚ) (img.height : ℚ) b).ymin
      (scaleBoxCoords (img.width : ℚ) (img.height : ℚ) b).xmax
      (scaleBoxCoords (img.width : ℚ) (img.height : ℚ) b).ymax
      (generate_random_color (colors 0)) 3
      ∈ (draw_bounding_boxes colors fontBBox img [(label, b)]).ops := by
  simp [draw_bounding_boxes, drawOneBox, draw_text_with_outline, List.enum]

/-- Witness for C5 at a box inverted on both axes. -/
theorem render_tolerates_degenerate_boxes_witness :
    ((⟨500, 500, 100, 100⟩ : NormalizedBox).ymax < (⟨500, 500, 100, 100⟩ : NormalizedBox).ymin ∨
      (⟨500, 500, 100, 100⟩ : NormalizedBox).xmax < (⟨500, 500, 100, 100⟩ : NormalizedBox).xmin ∨
      (⟨500, 500, 100, 100⟩ : NormalizedBox).ymin < 0 ∨
      (⟨500, 500, 100, 100⟩ : NormalizedBox).xmin < 0 ∨
      1000 < (⟨500, 500, 100, 100⟩ : NormalizedBox).ymax ∨
      1000 < (⟨500, 500, 100, 100⟩ : NormalizedBox).xmax) ∧
    DrawCmd.rectOutline
      (scaleBoxCoords ((100 : Nat) : ℚ) ((100 : Nat) : ℚ) ⟨500, 500, 100, 100⟩).xmin
      (scaleBoxCoords ((100 : Nat) : ℚ) ((100 : Nat) : ℚ) ⟨500, 500, 100, 100⟩).ymin
      (scaleBoxCoords ((100 : Nat) : ℚ) ((100 : Nat) : ℚ) ⟨500, 500, 100, 100⟩).xmax
      (scaleBoxCoords ((100 : Nat) : ℚ) ((100 : Nat) : ℚ) ⟨500, 500, 100, 100⟩).ymax
      (generate_random_color 0) 3
      ∈ (draw_bounding_boxes (fun _ => 0) (fun _ => ⟨0, 0, 0, 0⟩)
          ⟨100, 100, 0, []⟩ [("x", ⟨500, 500, 100, 100⟩)]).ops :=
  ⟨Or.inl (by norm_num),
    render_tolerates_degenerate_boxes (fun _ => 0) (fun _ => ⟨0, 0, 0, 0⟩)
      ⟨100, 100, 0, []⟩ "x" ⟨500, 500, 100, 100⟩ (Or.inl (by norm_num))⟩

/-- C7: the claim asserts the renderer allocates a new image and the
returned image never aliases the input; but `draw_bounding_boxes` draws
into the very image object it is handed (via `ImageDraw.Draw(image)`) and
returns that same object: called directly on a heap holding one image at
location 0, it returns location 0 and the image there has been mutated. -/
theorem draw_bounding_boxes_mutates_and_aliases :
    (draw_bounding_boxes_ref (fun _ => 0) (fun _ => ⟨0, 0, 0, 0⟩)
        ⟨[⟨100, 100, 7, []⟩]⟩ 0 [("a", ⟨0, 0, 0, 0⟩)]).2 = 0 ∧
    (draw_bounding_boxes_ref (fun _ => 0) (fun _ => ⟨0, 0, 0, 0⟩)
        ⟨[⟨100, 100, 7, []⟩]⟩ 0 [("a", ⟨0, 0, 0, 0⟩)]).1.getImg 0 ≠
      (⟨[⟨100, 100, 7, []⟩]⟩ : Heap).getImg 0 := by
  constructor
  · rfl
  · intro e
    have h7 : ((draw_bounding_boxes_ref (fun _ => 0) (fun _ => ⟨0, 0, 0, 0⟩)
        ⟨[⟨100, 100, 7, []⟩]⟩ 0 [("a", ⟨0, 0, 0, 0⟩)]).1.getImg 0).ops.length = 7 := rfl
    rw [e] at h7
    exact absurd h7 (by decide)

/-- C7 (amended): `draw_bounding_boxes` itself mutates the image it is
given and returns that same image; the caller in `main` passes
`resized_image.copy()`, so along the program's render path the caller's
original image is never mutated and the returned annotated image lives at
a fresh location distinct from the original's. -/
theorem getD_set_append {α : Type} (l : List α) (x y : α) (d : α) (loc : Nat)
    (hloc : loc < l.length) :
    ((l ++ [x]).set l.length y).getD loc d = l.getD loc d := by
  have hlen : loc < ((l ++ [x]).set l.length y).length := by
    simp
    omega
  rw [List.getD_eq_getElem _ _ hlen, List.getElem_set_ne (Nat.ne_of_gt hloc) _,
      List.getElem_append_left, List.getD_eq_getElem l d hloc]

theorem renderPipeline_preserves_original (colors : Nat → Nat)
    (fontBBox : String → FontBox) (h : Heap) (loc : Nat)
    (bboxes : List (String × NormalizedBox)) (hloc : loc < h.images.length) :
    (renderPipeline colors fontBBox h loc bboxes).1.getImg loc = h.getImg loc ∧
    (renderPipeline colors fontBBox h loc bboxes).2 ≠ loc := by
  constructor
  · show ((h.images ++ [h.images.getD loc blankImage]).set h.images.length
        (draw_bounding_boxes colors fontBBox
          ((h.images ++ [h.images.getD loc blankImage]).getD h.images.length blankImage)
          bboxes)).getD loc blankImage = h.images.getD loc blankImage
    exact getD_set_append h.images _ _ blankImage loc hloc
  · show h.images.length ≠ loc
    exact Ne.symm (Nat.ne_of_lt hloc)

/-- Witness for C7 (amended) on a one-image heap. -/
theorem renderPipeline_preserves_original_witness :
    (0 : Nat) < (⟨[⟨100, 100, 7, []⟩]⟩ : Heap).images.length ∧
    ((renderPipeline (fun _ => 0) (fun _ => ⟨0, 0, 0, 0⟩)
        ⟨[⟨100, 100, 7, []⟩]⟩ 0 [("a", ⟨0, 0, 0, 0⟩)]).1.getImg 0 =
      (⟨[⟨100, 100, 7, []⟩]⟩ : Heap).getImg 0 ∧
    (renderPipeline (fun _ => 0) (fun _ => ⟨0, 0, 0, 0⟩)
        ⟨[⟨100, 100, 7, []⟩]⟩ 0 [("a", ⟨0, 0, 0, 0⟩)]).2 ≠ 0) :=
  ⟨by decide,
    renderPipeline_preserves_original (fun _ => 0) (fun _ => ⟨0, 0, 0, 0⟩)
      ⟨[⟨100, 100, 7, []⟩]⟩ 0 [("a", ⟨0, 0, 0, 0⟩)] (by decide)⟩

/-- C10: `draw_bounding_boxes` produces the same image as the variant with
the xmax/ymax expansion step (lines 80-83) removed: the expanded values
are never read after the outline rectangle is drawn — the label plate and
text depend only on xmin, ymin and the label measurements — so the
expansion step has no observable effect on the rendered image. -/
theorem expansion_step_no_observable_effect (colors : Nat → Nat)
    (fontBBox : String → FontBox) (img : PImage)
    (bboxes : List (String × NormalizedBox)) :
    draw_bounding_boxes colors fontBBox img bboxes =
      draw_bounding_boxes_noexpand colors fontBBox img bboxes :=
  rfl

end BBoxVerify
